import Mathlib

/-!
Verification of the solid-mcp implementation: a shallow embedding of the
TypeScript sources (src/lib/client.ts, src/lib/utils.ts, src/lib/server.ts)
into Lean, together with theorems settling the specification claims.

JavaScript runtime primitives (string methods, the URL constructor, the JSON
parser, fetch responses) are modelled explicitly; each model carries a doc
comment stating what it stands for.
-/

namespace SolidMCP

/-! ## Models of JavaScript string primitives -/

/-- Model of `needle` being a starting segment of `hay` (character lists). -/
def charsStartsWith : List Char → List Char → Bool
  | _, [] => true
  | [], _ :: _ => false
  | a :: as, b :: bs => a = b && charsStartsWith as bs

/-- Model of JS `hay.includes(sub)`: substring containment test. -/
def charsContains : List Char → List Char → Bool
  | [], sub => sub.isEmpty
  | c :: rest, sub => charsStartsWith (c :: rest) sub || charsContains rest sub

/-- JS `s.includes(sub)` on strings. -/
def strIncludes (s sub : String) : Bool :=
  charsContains s.data sub.data

/-- `l` ends with `suf` (character lists). -/
def charsEndsWith (l suf : List Char) : Bool :=
  charsStartsWith l.reverse suf.reverse

/-- JS `s.startsWith(pre)`. -/
def strStartsWith (s pre : String) : Bool :=
  charsStartsWith s.data pre.data

/-- JS `s.endsWith(suf)`. -/
def strEndsWith (s suf : String) : Bool :=
  charsEndsWith s.data suf.data

/-- JS `s.substring(n)` / dropping the first `n` characters. -/
def strDrop (s : String) (n : Nat) : String :=
  String.mk (s.data.drop n)

/-- JS `s.toLowerCase()` (ASCII, which covers every string the repository
compares). -/
def strToLower (s : String) : String :=
  String.mk (s.data.map Char.toLower)

/-- JS `s.trim()`. -/
def jsTrim (s : String) : String :=
  String.mk (((s.data.dropWhile Char.isWhitespace).reverse.dropWhile Char.isWhitespace).reverse)

/-- Split a character list on a separator, keeping empty segments (the
behavior of JS `String.prototype.split` with a single-character
separator). -/
def charsSplitOn (sep : Char) : List Char → List (List Char)
  | [] => [[]]
  | c :: rest =>
    let r := charsSplitOn sep rest
    if c = sep then [] :: r
    else
      match r with
      | [] => [[c]]
      | h :: t => (c :: h) :: t

/-- JS `s.split(sep)` for a one-character separator. -/
def strSplitOn (sep : Char) (s : String) : List String :=
  (charsSplitOn sep s.data).map String.mk

/-- Join strings with a separator (`Array.prototype.join`). -/
def strIntercalate (sep : String) : List String → String
  | [] => ""
  | [x] => x
  | x :: y :: xs => x ++ sep ++ strIntercalate sep (y :: xs)

/-- Model of JS `parseInt(s, 10)`: `none` stands for `NaN`. -/
def jsParseIntOpt (s : String) : Option Int :=
  let l := s.data.dropWhile (fun c => c.isWhitespace)
  let signAndRest : Int × List Char :=
    match l with
    | '-' :: r => (-1, r)
    | '+' :: r => (1, r)
    | _ => (1, l)
  let digits := signAndRest.2.takeWhile (fun c => c.isDigit)
  if digits.isEmpty then none
  else some (signAndRest.1 * (digits.foldl (fun a c => a * 10 + (c.toNat - 48)) 0 : Nat))

/-- A JS number that is either an integer or `NaN` (the only numbers the
embedded code can produce from headers). -/
inductive JsNum where
  | int (i : Int)
  | nan
deriving DecidableEq, Repr

/-- `parseInt(s, 10)` producing a `JsNum`. -/
def jsParseInt (s : String) : JsNum :=
  match jsParseIntOpt s with
  | some i => .int i
  | none => .nan

/-! ## Model of the platform URL parser

`new URL(s)` succeeds exactly on absolute URLs.  The model accepts a string
that begins with a valid scheme followed by `:`; for the special schemes
(http, https, ws, wss, ftp, file) it additionally requires `//` and a
non-empty authority, mirroring the WHATWG URL parser on the inputs the
repository can produce. -/

def isSchemeChar (c : Char) : Bool :=
  c.isAlphanum || c = '+' || c = '-' || c = '.'

/-- Split `l` at the first `:` provided everything before it is made of
scheme characters. -/
def schemeSplit : List Char → Option (List Char × List Char)
  | [] => none
  | c :: rest =>
    if c = ':' then some ([], rest)
    else if isSchemeChar c then
      match schemeSplit rest with
      | some (sch, r) => some (c :: sch, r)
      | none => none
    else none

def specialSchemes : List String := ["http", "https", "ws", "wss", "ftp", "file"]

/-- Model of `new URL(s)` succeeding (absolute URL test). -/
def isAbsoluteUrl (s : String) : Bool :=
  match schemeSplit s.data with
  | none => false
  | some (sch, rest) =>
    match sch with
    | [] => false
    | c :: _ =>
      if !c.isAlpha then false
      else
        let scheme := String.mk (sch.map Char.toLower)
        if specialSchemes.contains scheme then
          charsStartsWith rest ['/', '/'] &&
            (match rest.drop 2 with
             | [] => scheme = "file"
             | d :: _ => !(d = '/' || d = '?' || d = '#') || scheme = "file")
        else true

/-- Model of `new URL(s).pathname` for the absolute URLs the repository
handles (special-scheme URLs with an authority). -/
def urlPathname (s : String) : String :=
  match schemeSplit s.data with
  | none => ""
  | some (_, rest) =>
    if charsStartsWith rest ['/', '/'] then
      let afterAuth := (rest.drop 2).dropWhile (fun c => !(c = '/' || c = '?' || c = '#'))
      match afterAuth with
      | [] => "/"
      | d :: _ =>
        if d = '/' then String.mk (afterAuth.takeWhile (fun c => !(c = '?' || c = '#')))
        else "/"
    else String.mk (rest.takeWhile (fun c => !(c = '?' || c = '#')))

/-! ## src/lib/utils.ts -/

/-- `normalizeUrl` from src/lib/utils.ts: absolute URIs pass through; a
relative URI is appended to the base URL with exactly one `/` between. -/
def normalizeUrl (uri : String) (baseUrl : String) : String :=
  if isAbsoluteUrl uri then uri
  else
    let base := if strEndsWith baseUrl "/" then baseUrl else baseUrl ++ "/"
    let path := if strStartsWith uri "/" then strDrop uri 1 else uri
    base ++ path

/-- `isValidUrl` from src/lib/utils.ts. -/
def isValidUrl (url : String) : Bool :=
  isAbsoluteUrl url

/-- `getFilenameFromUrl` from src/lib/utils.ts; `new URL(url)` throws on a
non-absolute input, modelled by `Except.error`. -/
def getFilenameFromUrl (url : String) : Except String String :=
  if isAbsoluteUrl url then
    let pathParts := strSplitOn '/' (urlPathname url)
    .ok ((pathParts.getLast?).getD "")
  else
    .error ("Invalid URL: " ++ url)

/-! ## Model of JavaScript values and JSON -/

/-- JSON values (the result of the platform `JSON.parse`). -/
inductive Json where
  | null
  | bool (b : Bool)
  | num (n : Int)
  | str (s : String)
  | arr (elems : List Json)
  | obj (fields : List (String × Json))

/-- JavaScript runtime values as far as the repository inspects them. -/
inductive JsVal where
  | vundefined
  | vnull
  | vbool (b : Bool)
  | vnum (n : Int)
  | vstr (s : String)
  | vblob (data : String)
  | varr (elems : List JsVal)
  | vobj (fields : List (String × JsVal))

/-- JS truthiness. -/
def jsTruthy : JsVal → Bool
  | .vundefined => false
  | .vnull => false
  | .vbool b => b
  | .vnum n => n ≠ 0
  | .vstr s => s ≠ ""
  | .vblob _ => true
  | .varr _ => true
  | .vobj _ => true

/-- JS `typeof`. -/
def jsTypeof : JsVal → String
  | .vundefined => "undefined"
  | .vnull => "object"
  | .vbool _ => "boolean"
  | .vnum _ => "number"
  | .vstr _ => "string"
  | .vblob _ => "object"
  | .varr _ => "object"
  | .vobj _ => "object"

/-! The JS ToString coercion on the values above. -/

mutual

/-- Model of the JS ToString coercion. -/
def jsToString : JsVal → String
  | .vundefined => "undefined"
  | .vnull => "null"
  | .vbool true => "true"
  | .vbool false => "false"
  | .vnum n => toString n
  | .vstr s => s
  | .vblob _ => "[object Blob]"
  | .varr l => jsToStringList l
  | .vobj _ => "[object Object]"

def jsToStringList : List JsVal → String
  | [] => ""
  | [x] => jsToStringElem x
  | x :: y :: xs => jsToStringElem x ++ "," ++ jsToStringList (y :: xs)

/-- Array elements render like `jsToString` except that `null` and
`undefined` become empty. -/
def jsToStringElem : JsVal → String
  | .vnull => ""
  | .vundefined => ""
  | .vbool true => "true"
  | .vbool false => "false"
  | .vnum n => toString n
  | .vstr s => s
  | .vblob _ => "[object Blob]"
  | .varr l => jsToStringList l
  | .vobj _ => "[object Object]"

end

/-- Quote a string as a JSON string literal (escaping the characters the
embedded scenarios can contain). -/
def jsonQuote (s : String) : String :=
  "\"" ++ String.mk (s.data.flatMap (fun c =>
    if c = '"' then ['\\', '"']
    else if c = '\\' then ['\\', '\\']
    else if c = '\n' then ['\\', 'n']
    else [c])) ++ "\""

/-! `JSON.stringify`. -/

mutual

/-- Model of `JSON.stringify`; `none` is the `undefined` result. -/
def jsStringify : JsVal → Option String
  | .vundefined => none
  | .vnull => some "null"
  | .vbool true => some "true"
  | .vbool false => some "false"
  | .vnum n => some (toString n)
  | .vstr s => some (jsonQuote s)
  | .vblob _ => some "\x7b\x7d"
  | .varr l => some ("[" ++ jsStringifyArr l ++ "]")
  | .vobj fs => some ("\x7b" ++ strIntercalate "," (jsStringifyObj fs) ++ "\x7d")

def jsStringifyArr : List JsVal → String
  | [] => ""
  | [x] => (jsStringify x).getD "null"
  | x :: y :: xs => (jsStringify x).getD "null" ++ "," ++ jsStringifyArr (y :: xs)

def jsStringifyObj : List (String × JsVal) → List String
  | [] => []
  | (k, v) :: rest =>
    match jsStringify v with
    | none => jsStringifyObj rest
    | some sv => (jsonQuote k ++ ":" ++ sv) :: jsStringifyObj rest

end

/-- Model of JS property access `v[k]`: plain objects look the key up
(absent keys give `undefined`), `null`/`undefined` receivers throw, every
other receiver yields `undefined` for the keys the repository uses. -/
def getField : JsVal → String → Except String JsVal
  | .vobj fs, k => .ok (((fs.find? (fun p => p.1 = k)).map Prod.snd).getD .vundefined)
  | .vnull, k => .error ("Cannot read properties of null (reading '" ++ k ++ "')")
  | .vundefined, k => .error ("Cannot read properties of undefined (reading '" ++ k ++ "')")
  | _, _ => .ok .vundefined

/-- Field lookup inside an object literal (the non-throwing core of
`getField`). -/
def objField (fs : List (String × JsVal)) (k : String) : JsVal :=
  ((fs.find? (fun p => p.1 = k)).map Prod.snd).getD .vundefined

/-! ### A model JSON parser (the platform `JSON.parse`)

Numbers are recognized but any fractional or exponent part is discarded;
no claim depends on parsed numeric values, only on parse success. -/

def jsonSkipWs (l : List Char) : List Char :=
  l.dropWhile (fun c => c = ' ' || c = '\n' || c = '\t' || c = '\r')

/-- Parse the body of a JSON string literal after the opening quote. -/
def jsonParseStr : List Char → Option (String × List Char)
  | [] => none
  | '"' :: rest => some ("", rest)
  | '\\' :: c :: rest =>
    (jsonParseStr rest).map (fun p =>
      (String.mk [if c = 'n' then '\n' else if c = 't' then '\t' else c] ++ p.1, p.2))
  | '\\' :: [] => none
  | c :: rest => (jsonParseStr rest).map (fun p => (String.mk [c] ++ p.1, p.2))

def lbraceChar : Char := Char.ofNat 123

def rbraceChar : Char := Char.ofNat 125

mutual

def jsonParseVal : Nat → List Char → Option (Json × List Char)
  | 0, _ => none
  | fuel + 1, l =>
    match jsonSkipWs l with
    | [] => none
    | c :: rest =>
      if c = '"' then (jsonParseStr rest).map (fun p => (.str p.1, p.2))
      else if c = '[' then
        match jsonSkipWs rest with
        | ']' :: r => some (.arr [], r)
        | r => (jsonParseElems fuel r).map (fun p => (.arr p.1, p.2))
      else if c = lbraceChar then
        match jsonSkipWs rest with
        | r =>
          if r.head? = some rbraceChar then some (.obj [], r.tail)
          else (jsonParseMembers fuel r).map (fun p => (.obj p.1, p.2))
      else if c = 'n' && charsStartsWith rest ['u', 'l', 'l'] then
        some (.null, rest.drop 3)
      else if c = 't' && charsStartsWith rest ['r', 'u', 'e'] then
        some (.bool true, rest.drop 3)
      else if c = 'f' && charsStartsWith rest ['a', 'l', 's', 'e'] then
        some (.bool false, rest.drop 4)
      else if c = '-' || c.isDigit then
        let digits := (c :: rest).takeWhile (fun d => d.isDigit || d = '-')
        let after := (c :: rest).drop digits.length
        let afterNum := after.dropWhile (fun d => d.isDigit || d = '.' || d = 'e' || d = 'E' || d = '+' || d = '-')
        match jsParseIntOpt (String.mk digits) with
        | some i => some (.num i, afterNum)
        | none => none
      else none

def jsonParseElems : Nat → List Char → Option (List Json × List Char)
  | 0, _ => none
  | fuel + 1, l =>
    match jsonParseVal fuel l with
    | none => none
    | some (v, rest) =>
      match jsonSkipWs rest with
      | ',' :: r => (jsonParseElems fuel r).map (fun p => (v :: p.1, p.2))
      | ']' :: r => some ([v], r)
      | _ => none

def jsonParseMembers : Nat → List Char → Option (List (String × Json) × List Char)
  | 0, _ => none
  | fuel + 1, l =>
    match jsonSkipWs l with
    | '"' :: rest =>
      match jsonParseStr rest with
      | none => none
      | some (k, rest2) =>
        match jsonSkipWs rest2 with
        | ':' :: rest3 =>
          match jsonParseVal fuel rest3 with
          | none => none
          | some (v, rest4) =>
            match jsonSkipWs rest4 with
            | ',' :: r => (jsonParseMembers fuel r).map (fun p => ((k, v) :: p.1, p.2))
            | r =>
              if r.head? = some rbraceChar then some ([(k, v)], r.tail) else none
        | _ => none
    | _ => none

end

/-- Model of `JSON.parse`: `none` is a thrown `SyntaxError`. -/
def jsonParse (s : String) : Option Json :=
  match jsonParseVal (s.length + 1) s.data with
  | some (j, rest) => if (jsonSkipWs rest).isEmpty then some j else none
  | none => none

/-! ## src/lib/types.ts : data model -/

/-- `SolidResource.permissions`. -/
structure Permissions where
  read : Bool
  write : Bool
  append : Bool
  control : Bool
deriving DecidableEq, Repr

/-- `SolidResource` from src/lib/types.ts.  `type` is the string literal
union `'container' | 'resource'`.  `size` is `undefined` (outer `none`) when
no Content-Length header was present, otherwise the `parseInt` result. -/
structure SolidResource where
  uri : String
  type : String
  contentType : Option String := none
  modified : Option String := none
  size : Option JsNum := none
  permissions : Option Permissions := none
deriving DecidableEq, Repr

/-- Decoded resource content: structured for JSON-family types, raw text for
text-family types, an opaque binary handle otherwise. -/
inductive ResourceContent where
  | textC (s : String)
  | jsonC (j : Json)
  | blobC (bytes : String)

/-- `SolidResourceResponse` from src/lib/types.ts. -/
structure SolidResourceResponse where
  resource : SolidResource
  content : Option ResourceContent := none
  children : Option (List SolidResource) := none

/-- A search hit: a child descriptor spread together with a relevance
score (`{...child, relevance: 0.8}` in src/lib/server.ts). -/
structure SearchHit extends SolidResource where
  relevance : Rat
deriving DecidableEq, Repr

/-! ## Model of the transport (the injected fetch capability) -/

inductive HttpMethod where
  | GET
  | PUT
  | DELETE
deriving DecidableEq, Repr

/-- A request body: a string or a binary blob. -/
inductive HttpBody where
  | strB (s : String)
  | blobB (bytes : String)
deriving DecidableEq, Repr

/-- The request handed to the fetch capability. -/
structure HttpRequest where
  url : String
  method : HttpMethod
  headers : List (String × String)
  body : Option HttpBody := none
deriving DecidableEq, Repr

/-- The response a fetch yields.  `body` is the full payload; the deferred
readers (`text()`, `json()`, `blob()`) each read it once, which the client
embedding tracks explicitly. -/
structure HttpResponse where
  ok : Bool
  status : Nat
  statusText : String
  headers : List (String × String)
  body : String
deriving DecidableEq, Repr

/-- The transport: each call either produces a fresh response or rejects
(a thrown transport error, carried as a message). -/
def Transport : Type := HttpRequest → Except String HttpResponse

/-- `Headers.get`: case-insensitive header lookup. -/
def headerGet (hs : List (String × String)) (name : String) : Option String :=
  (hs.find? (fun p => strToLower p.1 = strToLower name)).map Prod.snd

/-- JS record assignment `headers[k] = v`: replace an existing entry or
append a new one. -/
def setHeader (hs : List (String × String)) (k v : String) : List (String × String) :=
  if hs.any (fun p => p.1 = k) then
    hs.map (fun p => if p.1 = k then (k, v) else p)
  else hs ++ [(k, v)]

/-- Outcome of an operation: a value, a thrown error (message), or
divergence (an infinite loop, which no catch can intercept). -/
inductive Outcome (α : Type) where
  | ok (val : α)
  | err (msg : String)
  | div

/-- `SolidPodConfig.auth`. -/
structure AuthConfig where
  type : String
  token : Option String := none
  refreshToken : Option String := none

/-- `SolidPodConfig` (the fetch member is passed separately as the
`Transport`). -/
structure SolidPodConfig where
  podUrl : String
  auth : Option AuthConfig := none

/-! ## src/lib/utils.ts : parseResourceMetadata -/

def ldpContainerMarker : String := "http://www.w3.org/ns/ldp#Container"

def dcFormatMarker : String := "http://purl.org/dc/terms/format"

/-- First match group of the regex `/<([^>]+)>/`. -/
def angleMatch : List Char → Option String
  | [] => none
  | '<' :: rest =>
    let grp := rest.takeWhile (fun c => c ≠ '>')
    if grp.isEmpty then angleMatch rest
    else if grp.length < rest.length then some (String.mk grp)
    else none
  | _ :: rest => angleMatch rest

/-- First match group of the regex `/"([^"]+)"/`. -/
def quoteMatch : List Char → Option String
  | [] => none
  | '"' :: rest =>
    let grp := rest.takeWhile (fun c => c ≠ '"')
    if grp.isEmpty then quoteMatch rest
    else if grp.length < rest.length then some (String.mk grp)
    else none
  | _ :: rest => quoteMatch rest

/-- The line loop of `parseResourceMetadata`, carrying the current subject,
its container flag, its captured content type and the emitted resources. -/
def parseRMGo (containerUrl : String) :
    List String → String → Bool → String → List SolidResource → List SolidResource
  | [], _, _, _, acc => acc
  | line :: rest, currentUri0, isCont0, ctype0, acc =>
    let t := jsTrim line
    let st1 : String × Bool × String :=
      if strIncludes t "<http" && strIncludes t ">" then
        match angleMatch t.data with
        | some u => (u, false, "")
        | none => (currentUri0, isCont0, ctype0)
      else (currentUri0, isCont0, ctype0)
    let currentUri := st1.1
    let isCont := if strIncludes t ldpContainerMarker then true else st1.2.1
    let ctype :=
      if strIncludes t dcFormatMarker then
        match quoteMatch t.data with
        | some c => c
        | none => st1.2.2
      else st1.2.2
    if currentUri ≠ "" && (strEndsWith t "." || strEndsWith t ";" || t = "") then
      let acc' :=
        if currentUri ≠ containerUrl then
          acc ++ [{ uri := currentUri,
                    type := if isCont then "container" else "resource",
                    contentType := if ctype = "" then none else some ctype }]
        else acc
      parseRMGo containerUrl rest "" isCont ctype acc'
    else
      parseRMGo containerUrl rest currentUri isCont ctype acc

/-- `parseResourceMetadata` from src/lib/utils.ts: the line-oriented scan of
a Turtle body producing the container's children. -/
def parseResourceMetadata (turtleContent : String) (containerUrl : String) :
    List SolidResource :=
  parseRMGo containerUrl (strSplitOn '\n' turtleContent) "" false "" []

/-! ## src/lib/client.ts : SolidClient

Each operation is a pure function of the transport and configuration.  It
returns the outcome together with the list of transport calls performed, in
order.  Thrown errors are `Outcome.err` carrying the message; the
`catch`-and-rewrap blocks of the source become explicit message wrapping. -/

/-- The message of the platform `TypeError` raised when a deferred body
reader is invoked on an already-consumed body. -/
def bodyConsumedMsg : String := "Body has already been consumed"

/-- The message of the platform `SyntaxError` raised by `JSON.parse` on
malformed input. -/
def jsonSyntaxMsg : String := "Unexpected token in JSON"

/-- `getAuthHeaders` from src/lib/client.ts. -/
def getAuthHeaders (cfg : SolidPodConfig) : List (String × String) :=
  let base := [("Accept", "application/ld+json, application/json, text/turtle")]
  match cfg.auth with
  | none => base
  | some a =>
    if a.type = "bearer" then
      match a.token with
      | some t => if t ≠ "" then base ++ [("Authorization", "Bearer " ++ t)] else base
      | none => base
    else if a.type = "dpop" then
      match a.token with
      | some t => if t ≠ "" then base ++ [("Authorization", "DPoP " ++ t)] else base
      | none => base
    else base

/-- `isContainer` from src/lib/client.ts, as a function of the body text the
method consumes: a plain substring search for the `ldp#Container` URI. -/
def isContainer (body : String) : Bool :=
  strIncludes body ldpContainerMarker

/-- `getPermissions` from src/lib/client.ts: a static placeholder record. -/
def getPermissions (_resourceUrl : String) : Option Permissions :=
  some { read := true, write := true, append := true, control := false }

/-- `normalizeUrl` applied to an arbitrary runtime value, as the executors
can do: `new URL(uri)` coerces its argument to a string, while
`uri.startsWith`/`uri.substring` throw a `TypeError` on non-strings. -/
def normalizeUrlJs (u : JsVal) (baseUrl : String) : Except String String :=
  if isAbsoluteUrl (jsToString u) then .ok (jsToString u)
  else
    match u with
    | .vstr s =>
      .ok ((if strEndsWith baseUrl "/" then baseUrl else baseUrl ++ "/") ++
        (if strStartsWith s "/" then strDrop s 1 else s))
    | _ => .error "uri.startsWith is not a function"

/-- Wrapper applied by `readResource`'s catch block. -/
def wrapReadErr (url msg : String) : String :=
  "Error reading resource " ++ url ++ ": " ++ msg

/-- `listContainerContents` from src/lib/client.ts: a second GET of the
container, whose body is handed to `parseResourceMetadata`. -/
def listContainerContents (t : Transport) (cfg : SolidPodConfig)
    (containerUrl : String) : Outcome (List SolidResource) × List HttpRequest :=
  let req : HttpRequest :=
    { url := containerUrl, method := .GET, headers := getAuthHeaders cfg }
  match t req with
  | .error e => (.err ("Error listing container contents: " ++ e), [req])
  | .ok resp =>
    if !resp.ok then
      (.err ("Error listing container contents: Failed to list container contents: "
        ++ toString resp.status ++ " " ++ resp.statusText), [req])
    else
      (.ok (parseResourceMetadata resp.body containerUrl), [req])

/-- The content-decoding step of `readResource`.  `bodyConsumed` records
whether `isContainer` already read the response body (it does exactly when
the Content-Type includes `text/turtle`); a second read throws. -/
def decodeContent (contentType : String) (bodyConsumed : Bool) (body : String) :
    Outcome (Option ResourceContent) :=
  if strIncludes contentType "application/json" || strIncludes contentType "application/ld+json" then
    if bodyConsumed then .err bodyConsumedMsg
    else
      match jsonParse body with
      | some j => .ok (some (.jsonC j))
      | none => .err jsonSyntaxMsg
  else if strIncludes contentType "text/" then
    if bodyConsumed then .err bodyConsumedMsg else .ok (some (.textC body))
  else
    if bodyConsumed then .err bodyConsumedMsg else .ok (some (.blobC body))

/-- The body of `readResource`'s try block, after URL normalization. -/
def readResourceCore (t : Transport) (cfg : SolidPodConfig)
    (resourceUrl : String) (includeContent : Bool) :
    Outcome SolidResourceResponse × List HttpRequest :=
  let req : HttpRequest :=
    { url := resourceUrl, method := .GET, headers := getAuthHeaders cfg }
  match t req with
  | .error e => (.err (wrapReadErr resourceUrl e), [req])
  | .ok response =>
    if !response.ok then
      (.err (wrapReadErr resourceUrl ("Failed to read resource: "
        ++ toString response.status ++ " " ++ response.statusText)), [req])
    else
      let contentType := (headerGet response.headers "Content-Type").getD ""
      let lastModified := (headerGet response.headers "Last-Modified").getD ""
      let contentLength := headerGet response.headers "Content-Length"
      let turtleCheck := strIncludes contentType "text/turtle"
      let isCont := turtleCheck && isContainer response.body
      let resource : SolidResource :=
        { uri := resourceUrl,
          type := if isCont then "container" else "resource",
          contentType := some contentType,
          modified := some lastModified,
          size := contentLength.map jsParseInt,
          permissions := getPermissions resourceUrl }
      let contentRes : Outcome (Option ResourceContent) :=
        if includeContent then decodeContent contentType turtleCheck response.body
        else .ok none
      match contentRes with
      | .err e => (.err (wrapReadErr resourceUrl e), [req])
      | .div => (.div, [req])
      | .ok content =>
        if isCont then
          match listContainerContents t cfg resourceUrl with
          | (.ok children, reqs) =>
            (.ok { resource := resource, content := content, children := some children },
              req :: reqs)
          | (.err e, reqs) => (.err (wrapReadErr resourceUrl e), req :: reqs)
          | (.div, reqs) => (.div, req :: reqs)
        else
          (.ok { resource := resource, content := content, children := none }, [req])

/-- `readResource` from src/lib/client.ts (string URI, as typed). -/
def readResource (t : Transport) (cfg : SolidPodConfig) (uri : String)
    (includeContent : Bool) : Outcome SolidResourceResponse × List HttpRequest :=
  readResourceCore t cfg (normalizeUrl uri cfg.podUrl) includeContent

/-- `readResource` reached with an arbitrary runtime value for the URI (the
executors pass `params.uri` through unchecked); `normalizeUrl` sits outside
the try block, so its `TypeError` escapes unwrapped. -/
def readResourceJs (t : Transport) (cfg : SolidPodConfig) (uriV : JsVal)
    (includeContent : Bool) : Outcome SolidResourceResponse × List HttpRequest :=
  match normalizeUrlJs uriV cfg.podUrl with
  | .error e => (.err e, [])
  | .ok u => readResourceCore t cfg u includeContent

/-- Wrapper applied by `writeResource`'s catch block. -/
def wrapWriteErr (url msg : String) : String :=
  "Error writing resource " ++ url ++ ": " ++ msg

/-- The tail of `writeResource`'s try block once the PUT request has been
assembled: issue it, check the status, then read the resource back. -/
def writePutFollowup (t : Transport) (cfg : SolidPodConfig)
    (resourceUrl : String) (req : HttpRequest) :
    Outcome SolidResourceResponse × List HttpRequest :=
  match t req with
  | .error e => (.err (wrapWriteErr resourceUrl e), [req])
  | .ok resp =>
    if !resp.ok then
      (.err (wrapWriteErr resourceUrl ("Failed to write resource: "
        ++ toString resp.status ++ " " ++ resp.statusText)), [req])
    else
      match readResource t cfg resourceUrl true with
      | (.ok r, reqs) => (.ok r, req :: reqs)
      | (.err e, reqs) => (.err (wrapWriteErr resourceUrl e), req :: reqs)
      | (.div, reqs) => (.div, req :: reqs)

/-- The body of `writeResource`'s try block: serialize the content, PUT,
then read the resource back. -/
def writeResourceCore (t : Transport) (cfg : SolidPodConfig)
    (resourceUrl : String) (content : JsVal) (contentType : String) :
    Outcome SolidResourceResponse × List HttpRequest :=
  let headers0 := setHeader (getAuthHeaders cfg) "Content-Type" contentType
  let bodyAndHeaders : Option HttpBody × List (String × String) :=
    match content with
    | .vstr s => (some (.strB s), headers0)
    | .vblob b => (some (.blobB b), headers0)
    | _ => ((jsStringify content).map .strB, setHeader headers0 "Content-Type" "application/json")
  writePutFollowup t cfg resourceUrl
    { url := resourceUrl, method := .PUT, headers := bodyAndHeaders.2,
      body := bodyAndHeaders.1 }

/-- `writeResource` from src/lib/client.ts. -/
def writeResource (t : Transport) (cfg : SolidPodConfig) (uri : String)
    (content : JsVal) (contentType : String) :
    Outcome SolidResourceResponse × List HttpRequest :=
  writeResourceCore t cfg (normalizeUrl uri cfg.podUrl) content contentType

/-- `writeResource` reached with arbitrary runtime values from the
executor. -/
def writeResourceJs (t : Transport) (cfg : SolidPodConfig) (uriV : JsVal)
    (content : JsVal) (contentTypeV : JsVal) :
    Outcome SolidResourceResponse × List HttpRequest :=
  match normalizeUrlJs uriV cfg.podUrl with
  | .error e => (.err e, [])
  | .ok u => writeResourceCore t cfg u content (jsToString contentTypeV)

/-- Wrapper applied by `deleteResource`'s catch block. -/
def wrapDeleteErr (url msg : String) : String :=
  "Error deleting resource " ++ url ++ ": " ++ msg

/-- The body of `deleteResource`'s try block. -/
def deleteResourceCore (t : Transport) (cfg : SolidPodConfig)
    (resourceUrl : String) : Outcome Bool × List HttpRequest :=
  let req : HttpRequest :=
    { url := resourceUrl, method := .DELETE, headers := getAuthHeaders cfg }
  match t req with
  | .error e => (.err (wrapDeleteErr resourceUrl e), [req])
  | .ok resp =>
    if !resp.ok then
      (.err (wrapDeleteErr resourceUrl ("Failed to delete resource: "
        ++ toString resp.status ++ " " ++ resp.statusText)), [req])
    else
      (.ok true, [req])

/-- `deleteResource` from src/lib/client.ts. -/
def deleteResource (t : Transport) (cfg : SolidPodConfig) (uri : String) :
    Outcome Bool × List HttpRequest :=
  deleteResourceCore t cfg (normalizeUrl uri cfg.podUrl)

/-- `deleteResource` reached with an arbitrary runtime value. -/
def deleteResourceJs (t : Transport) (cfg : SolidPodConfig) (uriV : JsVal) :
    Outcome Bool × List HttpRequest :=
  match normalizeUrlJs uriV cfg.podUrl with
  | .error e => (.err e, [])
  | .ok u => deleteResourceCore t cfg u

/-- Wrapper applied by `createContainer`'s catch block. -/
def wrapCreateErr (url msg : String) : String :=
  "Error creating container " ++ url ++ ": " ++ msg

/-- The body of `createContainer`'s try block: a PUT with the container
Link header and a turtle content type, then a read-back. -/
def createContainerCore (t : Transport) (cfg : SolidPodConfig)
    (containerUrl : String) : Outcome SolidResourceResponse × List HttpRequest :=
  let headers :=
    setHeader
      (setHeader (getAuthHeaders cfg) "Link"
        "<http://www.w3.org/ns/ldp#BasicContainer>; rel=\"type\"")
      "Content-Type" "text/turtle"
  let req : HttpRequest :=
    { url := containerUrl, method := .PUT, headers := headers }
  match t req with
  | .error e => (.err (wrapCreateErr containerUrl e), [req])
  | .ok resp =>
    if !resp.ok then
      (.err (wrapCreateErr containerUrl ("Failed to create container: "
        ++ toString resp.status ++ " " ++ resp.statusText)), [req])
    else
      match readResource t cfg containerUrl true with
      | (.ok r, reqs) => (.ok r, req :: reqs)
      | (.err e, reqs) => (.err (wrapCreateErr containerUrl e), req :: reqs)
      | (.div, reqs) => (.div, req :: reqs)

/-- `createContainer` from src/lib/client.ts. -/
def createContainer (t : Transport) (cfg : SolidPodConfig) (uri : String) :
    Outcome SolidResourceResponse × List HttpRequest :=
  createContainerCore t cfg (normalizeUrl uri cfg.podUrl)

/-- `createContainer` reached with an arbitrary runtime value. -/
def createContainerJs (t : Transport) (cfg : SolidPodConfig) (uriV : JsVal) :
    Outcome SolidResourceResponse × List HttpRequest :=
  match normalizeUrlJs uriV cfg.podUrl with
  | .error e => (.err e, [])
  | .ok u => createContainerCore t cfg u

/-! ## src/lib/server.ts : SolidMCPServer

`searchResources` recurses through child containers with no depth limit or
cycle detection; the embedding indexes it by fuel, and running out of fuel
produces `Outcome.div` — the marker for the non-terminating run, which no
catch block can intercept. -/

/-- The child loop of `searchResources`.  `recurse` is the recursive search
at the remaining fuel.  A throw inside the loop (an unparseable child URL)
is caught by the surrounding try, discarding every hit accumulated so far
and yielding `[]`. -/
def searchChildren
    (recurse : String → Outcome (List SearchHit) × List HttpRequest)
    (recursive : Bool) (lowerTerm : String) :
    List SolidResource → List SearchHit → List HttpRequest →
    Outcome (List SearchHit) × List HttpRequest
  | [], acc, log => (.ok acc, log)
  | child :: rest, acc, log =>
    match getFilenameFromUrl child.uri with
    | .error _ => (.ok [], log)
    | .ok filename =>
      let acc' :=
        if strIncludes (strToLower filename) lowerTerm then
          acc ++ [{ toSolidResource := child, relevance := 0.8 }]
        else acc
      if recursive && child.type = "container" then
        match recurse child.uri with
        | (.ok childResults, sublog) =>
          searchChildren recurse recursive lowerTerm rest (acc' ++ childResults) (log ++ sublog)
        | (.err _, sublog) => (.ok [], log ++ sublog)
        | (.div, sublog) => (.div, log ++ sublog)
      else
        searchChildren recurse recursive lowerTerm rest acc' log

/-- `searchResources` parameterized by the reading capability it drives
(`client.readResource(uri, false)` in the source).  The try/catch swallows
every thrown error, turning it into an empty result list. -/
def searchGo (read : JsVal → Outcome SolidResourceResponse × List HttpRequest)
    (termV : JsVal) (recursive : Bool) :
    Nat → JsVal → Outcome (List SearchHit) × List HttpRequest
  | 0, _ => (.div, [])
  | fuel + 1, uriV =>
    match read uriV with
    | (.err _, log) => (.ok [], log)
    | (.div, log) => (.div, log)
    | (.ok result, log) =>
      match result.children with
      | none => (.ok [], log)
      | some [] => (.ok [], log)
      | some (c :: cs) =>
        match termV with
        | .vstr term =>
          searchChildren (fun u => searchGo read termV recursive fuel (.vstr u))
            recursive (strToLower term) (c :: cs) [] log
        | _ => (.ok [], log)

/-- `searchResources` from src/lib/server.ts, driving the real client. -/
def searchResources (t : Transport) (cfg : SolidPodConfig)
    (uriV termV : JsVal) (recursive : Bool) (fuel : Nat) :
    Outcome (List SearchHit) × List HttpRequest :=
  searchGo (fun u => readResourceJs t cfg u false) termV recursive fuel uriV

/-- The result produced by each tool executor (src/lib/server.ts
`createTools`). -/
inductive ActionResult where
  | readR (r : SolidResourceResponse)
  | writeR (r : SolidResourceResponse)
  | deleteR (success : Bool)
  | listR (container : SolidResource) (children : List SolidResource)
  | createR (container : SolidResource)
  | searchR (results : List SearchHit)

/-- The response envelope of `handleRequest`:
`{status: 'success', result}` or `{status: 'error', error}`. -/
inductive MCPResponse where
  | success (result : ActionResult)
  | errorResp (error : String)

/-- The registered tool names, in registration order. -/
def toolNames : List String :=
  ["read_resource", "write_resource", "delete_resource", "list_container",
   "create_container", "search"]

/-- The `execute` closures of the six tools (src/lib/server.ts): parameter
extraction followed by the client call. -/
def execTool (t : Transport) (cfg : SolidPodConfig) (fuel : Nat)
    (name : String) (params : JsVal) : Outcome ActionResult × List HttpRequest :=
  if name = "read_resource" then
    match getField params "uri", getField params "include_content" with
    | .error e, _ => (.err e, [])
    | _, .error e => (.err e, [])
    | .ok uriV, .ok incV =>
      let inc := match incV with
        | .vundefined => true
        | v => jsTruthy v
      match readResourceJs t cfg uriV inc with
      | (.ok r, log) => (.ok (.readR r), log)
      | (.err e, log) => (.err e, log)
      | (.div, log) => (.div, log)
  else if name = "write_resource" then
    match getField params "uri", getField params "content", getField params "content_type" with
    | .error e, _, _ => (.err e, [])
    | _, .error e, _ => (.err e, [])
    | _, _, .error e => (.err e, [])
    | .ok uriV, .ok contentV, .ok ctV =>
      match writeResourceJs t cfg uriV contentV ctV with
      | (.ok r, log) => (.ok (.writeR r), log)
      | (.err e, log) => (.err e, log)
      | (.div, log) => (.div, log)
  else if name = "delete_resource" then
    match getField params "uri" with
    | .error e => (.err e, [])
    | .ok uriV =>
      match deleteResourceJs t cfg uriV with
      | (.ok b, log) => (.ok (.deleteR b), log)
      | (.err e, log) => (.err e, log)
      | (.div, log) => (.div, log)
  else if name = "list_container" then
    match getField params "uri" with
    | .error e => (.err e, [])
    | .ok uriV =>
      match readResourceJs t cfg uriV false with
      | (.ok r, log) => (.ok (.listR r.resource (r.children.getD [])), log)
      | (.err e, log) => (.err e, log)
      | (.div, log) => (.div, log)
  else if name = "create_container" then
    match getField params "uri" with
    | .error e => (.err e, [])
    | .ok uriV =>
      match createContainerJs t cfg uriV with
      | (.ok r, log) => (.ok (.createR r.resource), log)
      | (.err e, log) => (.err e, log)
      | (.div, log) => (.div, log)
  else if name = "search" then
    match getField params "container_uri", getField params "search_term",
        getField params "recursive" with
    | .error e, _, _ => (.err e, [])
    | _, .error e, _ => (.err e, [])
    | _, _, .error e => (.err e, [])
    | .ok uriV, .ok termV, .ok recV =>
      match searchResources t cfg uriV termV (jsTruthy recV) fuel with
      | (.ok results, log) => (.ok (.searchR results), log)
      | (.err e, log) => (.err e, log)
      | (.div, log) => (.div, log)
  else
    (.err ("Unknown action: " ++ name), [])

/-- The try-block body of `handleRequest`: validation, registry lookup,
execution. -/
def innerHandle (t : Transport) (cfg : SolidPodConfig) (fuel : Nat)
    (request : JsVal) : Outcome ActionResult × List HttpRequest :=
  match getField request "action" with
  | .error e => (.err e, [])
  | .ok actionV =>
    if !jsTruthy actionV || jsTypeof actionV ≠ "string" then
      (.err "Invalid request: missing or invalid action", [])
    else
      match getField request "parameters" with
      | .error e => (.err e, [])
      | .ok paramsV =>
        if !jsTruthy paramsV || jsTypeof paramsV ≠ "object" then
          (.err "Invalid request: missing or invalid parameters", [])
        else
          let actionName := jsToString actionV
          if toolNames.contains actionName then
            execTool t cfg fuel actionName paramsV
          else
            (.err ("Unknown action: " ++ actionName), [])

/-- `handleRequest` from src/lib/server.ts: the try block wrapped so that
a successful result becomes `{status: 'success', result}` and every thrown
error becomes `{status: 'error', error}`.  Divergence is not an exception
and passes through. -/
def handleRequest (t : Transport) (cfg : SolidPodConfig) (fuel : Nat)
    (request : JsVal) : Outcome MCPResponse × List HttpRequest :=
  match innerHandle t cfg fuel request with
  | (.ok r, log) => (.ok (.success r), log)
  | (.err e, log) => (.ok (.errorResp e), log)
  | (.div, log) => (.div, log)

/-! ## Shared helper lemmas -/

theorem charsStartsWith_append (a b : List Char) :
    charsStartsWith (a ++ b) a = true := by
  induction a with
  | nil => cases b <;> rfl
  | cons c cs ih => simp [charsStartsWith, ih]

theorem charsEndsWith_append (a b : List Char) :
    charsEndsWith (a ++ b) b = true := by
  unfold charsEndsWith
  rw [List.reverse_append]
  exact charsStartsWith_append b.reverse a.reverse

/-- Every header produced by `getAuthHeaders` is the Accept header or the
Authorization header. -/
theorem getAuthHeaders_keys (cfg : SolidPodConfig) :
    ∀ p ∈ getAuthHeaders cfg, p.1 = "Accept" ∨ p.1 = "Authorization" := by
  obtain ⟨pu, auth⟩ := cfg
  intro p hp
  unfold getAuthHeaders at hp
  rcases auth with _ | ⟨ty, tok, rtok⟩
  · simp at hp
    rw [hp]
    left; rfl
  · by_cases h1 : ty = "bearer" <;> by_cases h3 : ty = "dpop" <;>
      rcases tok with _ | tk <;>
      simp only [h1, h3, if_pos, if_neg, if_true, if_false, ite_true, ite_false,
        reduceIte] at hp <;>
      first
      | (by_cases h2 : tk = "" <;> simp [h2] at hp <;>
          first
          | (rcases hp with hp | hp
             · rw [hp]; left; rfl
             · rw [hp]; right; rfl)
          | (rw [hp]; left; rfl))
      | (simp at hp; rw [hp]; left; rfl)

theorem find?_append_skip (hs : List (String × String)) (k v : String)
    (h : ∀ p ∈ hs, ¬ strToLower p.1 = strToLower k) :
    (hs ++ [(k, v)]).find? (fun p => strToLower p.1 = strToLower k) = some (k, v) := by
  induction hs with
  | nil => simp [List.find?]
  | cons a as ih =>
    rw [List.cons_append]
    simp [List.find?_cons, h a (by simp), ih (fun p hp => h p (by simp [hp]))]

/-- Setting a header that is not yet present makes it visible to
`headerGet`. -/
theorem headerGet_setHeader_fresh (hs : List (String × String)) (k v : String)
    (h : ∀ p ∈ hs, ¬ strToLower p.1 = strToLower k) :
    headerGet (setHeader hs k v) k = some v := by
  have hany : hs.any (fun p => p.1 = k) = false := by
    rw [List.any_eq_false]
    intro p hp hd
    have hk : p.1 = k := of_decide_eq_true hd
    exact h p hp (by rw [hk])
  unfold setHeader headerGet
  simp only [hany, Bool.false_eq_true, if_false]
  rw [find?_append_skip hs k v h]
  rfl

/-- Overwriting a header set on a previously-header-free list leaves only
the second value visible. -/
theorem headerGet_set_set (hs : List (String × String)) (k v1 v2 : String)
    (hkeys : ∀ p ∈ hs, ¬ p.1 = k) (hlow : ∀ p ∈ hs, ¬ strToLower p.1 = strToLower k) :
    headerGet (setHeader (setHeader hs k v1) k v2) k = some v2 := by
  have hany : hs.any (fun p => p.1 = k) = false := by
    rw [List.any_eq_false]
    intro p hp hd
    exact hkeys p hp (of_decide_eq_true hd)
  have h1 : setHeader hs k v1 = hs ++ [(k, v1)] := by
    unfold setHeader
    simp only [hany, Bool.false_eq_true, if_false]
  have hany2 : ((hs ++ [(k, v1)]).any (fun p => p.1 = k)) = true := by
    rw [List.any_eq_true]
    exact ⟨(k, v1), by simp, by simp⟩
  have hmap : (hs ++ [(k, v1)]).map (fun p => if p.1 = k then (k, v2) else p) =
      hs ++ [(k, v2)] := by
    rw [List.map_append]
    congr 1
    · calc hs.map (fun p => if p.1 = k then (k, v2) else p) = hs.map id :=
            List.map_congr_left (fun p hp => by simp [hkeys p hp])
        _ = hs := List.map_id hs
    · simp
  rw [h1]
  unfold setHeader
  simp only [hany2, if_true]
  rw [hmap]
  unfold headerGet
  rw [find?_append_skip hs k v2 hlow]
  rfl

/-- Whatever the transport does, the write path logs the PUT request
first. -/
theorem writePutFollowup_log (t : Transport) (cfg : SolidPodConfig)
    (u : String) (req : HttpRequest) :
    ∃ rest, (writePutFollowup t cfg u req).2 = req :: rest := by
  unfold writePutFollowup
  cases ht : t req with
  | error e => exact ⟨[], rfl⟩
  | ok resp =>
    dsimp only
    cases hok : resp.ok with
    | false => exact ⟨[], rfl⟩
    | true =>
      rcases hr : readResource t cfg u true with ⟨o, reqs⟩
      cases o with
      | ok r => exact ⟨reqs, rfl⟩
      | err e => exact ⟨reqs, rfl⟩
      | div => exact ⟨reqs, rfl⟩

/-- The spec's "delimiter-normalized base": `base` with a trailing `/`
ensured. -/
def ensureTrailingDelim (base : String) : String :=
  if strEndsWith base "/" then base else base ++ "/"

/-- The spec's "`u` stripped of any leading delimiter". -/
def stripLeadingDelim (u : String) : String :=
  if strStartsWith u "/" then strDrop u 1 else u

/-! ## Claim theorems -/

/-- C8: an input that parses as absolute is returned unchanged by
`normalizeUrl` for every base; a relative input yields the
delimiter-normalized base concatenated with the input stripped of any
leading delimiter — so the result starts with the normalized base and ends
with the stripped input. -/
theorem normalizeUrl_abs_id_rel_concat (u base : String) :
    (isAbsoluteUrl u = true → normalizeUrl u base = u) ∧
    (isAbsoluteUrl u = false →
      normalizeUrl u base = ensureTrailingDelim base ++ stripLeadingDelim u ∧
      charsStartsWith (normalizeUrl u base).data (ensureTrailingDelim base).data = true ∧
      charsEndsWith (normalizeUrl u base).data (stripLeadingDelim u).data = true) := by
  constructor
  · intro h
    simp [normalizeUrl, h]
  · intro h
    have he : normalizeUrl u base = ensureTrailingDelim base ++ stripLeadingDelim u := by
      simp [normalizeUrl, h, ensureTrailingDelim, stripLeadingDelim]
    refine ⟨he, ?_, ?_⟩
    · rw [he, String.data_append]
      exact charsStartsWith_append _ _
    · rw [he, String.data_append]
      exact charsEndsWith_append _ _

/-- Witness for C8 at concrete inputs: an absolute URL passes through, a
relative one is joined onto the base. -/
theorem normalizeUrl_abs_id_rel_concat_witness :
    normalizeUrl "http://p/x" "http://base" = "http://p/x" ∧
    normalizeUrl "notes/a.txt" "http://base" = "http://base/notes/a.txt" := by
  constructor
  · exact (normalizeUrl_abs_id_rel_concat "http://p/x" "http://base").1 (by decide)
  · rw [((normalizeUrl_abs_id_rel_concat "notes/a.txt" "http://base").2 (by decide)).1]
    rfl

/-! ## Scenario data -/

/-- A pod configuration with base locator `http://p` and no auth. -/
def cfgP : SolidPodConfig := { podUrl := "http://p" }

def c1Url : String := "http://p/c/"

/-- A turtle body declaring the container marker for the requested locator
and two child subjects with distinct `dc:format` values. -/
def c1Body : String :=
  "<http://p/c/> a <http://www.w3.org/ns/ldp#Container> .\n" ++
  "<http://p/c/a.txt> <http://purl.org/dc/terms/format> \"text/plain\" .\n" ++
  "<http://p/c/b.txt> <http://purl.org/dc/terms/format> \"application/json\" ."

def c1Resp : HttpResponse :=
  { ok := true, status := 200, statusText := "OK",
    headers := [("Content-Type", "text/turtle")], body := c1Body }

def c1ChildA : SolidResource :=
  { uri := "http://p/c/a.txt", type := "resource", contentType := some "text/plain" }

def c1ChildB : SolidResource :=
  { uri := "http://p/c/b.txt", type := "resource", contentType := some "application/json" }

/-- The read result the C1 scenario produces. -/
def c1Expected : SolidResourceResponse :=
  { resource := { uri := c1Url, type := "container", contentType := some "text/turtle",
                  modified := some "", size := none, permissions := getPermissions c1Url },
    content := none, children := some [c1ChildA, c1ChildB] }

/-- A transport serving the C1 container body for `c1Url`. -/
def c1T : Transport := fun req =>
  if req.url = c1Url then .ok c1Resp else .error "Not Found"

/-- C1: a read of a locator whose turtle response contains the
`ldp#Container` marker for the requested locator plus two child subjects
with distinct `dc:format` values yields `resource.type = "container"` and
exactly two children whose declared content types are the two format
values.  (The body-bearing variant of the read is settled separately: with
`includeContent` the single-use body makes the read fail, see the C2
development.) -/
theorem read_turtle_container_two_children (t : Transport) (cfg : SolidPodConfig)
    (h : ∀ req : HttpRequest, req.url = c1Url → t req = .ok c1Resp) :
    (readResource t cfg c1Url false).1 = .ok c1Expected ∧
    ∀ r, (readResource t cfg c1Url false).1 = .ok r →
      r.resource.type = "container" ∧
      (r.children.getD []).length = 2 ∧
      (r.children.getD []).map SolidResource.contentType =
        [some "text/plain", some "application/json"] := by
  have habs : isAbsoluteUrl c1Url = true := by decide
  have hn : normalizeUrl c1Url cfg.podUrl = c1Url := by simp [normalizeUrl, habs]
  have hmain : (readResource t cfg c1Url false).1 = .ok c1Expected := by
    unfold readResource
    rw [hn]
    have ht := h { url := c1Url, method := .GET, headers := getAuthHeaders cfg, body := none } rfl
    unfold readResourceCore listContainerContents
    simp only [ht]
    rfl
  refine ⟨hmain, ?_⟩
  intro r hr
  rw [hmain] at hr
  injection hr with hr
  subst hr
  exact ⟨rfl, rfl, rfl⟩

/-- Witness for C1 at a concrete transport. -/
theorem read_turtle_container_two_children_witness :
    (readResource c1T cfgP c1Url false).1 = .ok c1Expected ∧
    c1Expected.resource.type = "container" ∧
    ((c1Expected.children.getD []).length = 2) := by
  have h := read_turtle_container_two_children c1T cfgP (fun req hr => by
    simp [c1T, hr])
  exact ⟨h.1, (h.2 c1Expected h.1).1, (h.2 c1Expected h.1).2.1⟩

/-- C2: the code fails the claim.  Over a transport whose deferred body
readers are single-use, a read with `includeContent` of a locator served as
turtle and classified as a container throws the wrapped body-reuse error
instead of returning the decoded body alongside the children: `isContainer`
has already consumed the one-shot body and the text decode re-reads it.
Exactly one GET is performed (the failure precedes the children fetch). -/
theorem read_container_includeBody_fails_on_single_use_body :
    (readResource c1T cfgP c1Url true).1 = .err (wrapReadErr c1Url bodyConsumedMsg) ∧
    (readResource c1T cfgP c1Url true).2.length = 1 := ⟨rfl, rfl⟩

/-- C10: when the response's Content-Type does not contain `text/turtle`,
a read performs exactly one GET, and any result it returns is classified
`"resource"` with no children — whatever the body contains (in particular
a JSON-LD body carrying the `ldp#Container` marker). -/
theorem read_non_turtle_single_get_resource (t : Transport) (cfg : SolidPodConfig)
    (url : String) (inc : Bool) (resp : HttpResponse)
    (habs : isAbsoluteUrl url = true)
    (h : ∀ req : HttpRequest, req.url = url → t req = .ok resp)
    (hct : strIncludes ((headerGet resp.headers "Content-Type").getD "") "text/turtle" = false) :
    (readResource t cfg url inc).2 =
      [{ url := url, method := .GET, headers := getAuthHeaders cfg, body := none }] ∧
    ∀ r, (readResource t cfg url inc).1 = .ok r →
      r.resource.type = "resource" ∧ r.children = none := by
  have hn : normalizeUrl url cfg.podUrl = url := by simp [normalizeUrl, habs]
  have ht := h { url := url, method := .GET, headers := getAuthHeaders cfg, body := none } rfl
  unfold readResource
  rw [hn]
  unfold readResourceCore
  simp only [ht, hct, Bool.false_and]
  cases hok : resp.ok with
  | false => exact ⟨rfl, fun r hr => Outcome.noConfusion hr⟩
  | true =>
    cases inc with
    | false =>
      refine ⟨rfl, fun r hr => ?_⟩
      injection hr with hr
      subst hr
      exact ⟨rfl, rfl⟩
    | true =>
      cases hdec : decodeContent ((headerGet resp.headers "Content-Type").getD "") false resp.body with
      | ok c =>
        refine ⟨rfl, fun r hr => ?_⟩
        injection hr with hr
        subst hr
        exact ⟨rfl, rfl⟩
      | err e => exact ⟨rfl, fun r hr => Outcome.noConfusion hr⟩
      | div => exact ⟨rfl, fun r hr => Outcome.noConfusion hr⟩

/-- The C10 witness scenario: a JSON-LD response whose body carries the
container marker. -/
def c10Url : String := "http://p/j"

def c10Body : String := "\x7b\"@type\":\"http://www.w3.org/ns/ldp#Container\"\x7d"

def c10Resp : HttpResponse :=
  { ok := true, status := 200, statusText := "OK",
    headers := [("Content-Type", "application/ld+json")], body := c10Body }

def c10T : Transport := fun req =>
  if req.url = c10Url then .ok c10Resp else .error "Not Found"

/-- The result the C10 witness read returns. -/
def c10Result : SolidResourceResponse :=
  { resource := { uri := c10Url, type := "resource",
                  contentType := some "application/ld+json", modified := some "",
                  size := none, permissions := getPermissions c10Url },
    content := some (.jsonC (.obj [("@type", .str "http://www.w3.org/ns/ldp#Container")])),
    children := none }

/-- Witness for C10: a JSON-LD container description is read with one GET
and classified as a plain resource without children. -/
theorem read_non_turtle_single_get_resource_witness :
    (readResource c10T cfgP c10Url true).2 =
      [{ url := c10Url, method := .GET, headers := getAuthHeaders cfgP, body := none }] ∧
    c10Result.resource.type = "resource" ∧ c10Result.children = none := by
  have h := read_non_turtle_single_get_resource c10T cfgP c10Url true c10Resp
    (by decide) (fun req hr => by simp [c10T, hr]) (by decide)
  exact ⟨h.1, (h.2 c10Result (by rfl)).1, (h.2 c10Result (by rfl)).2⟩

/-- C6: a write whose content is neither a string nor a binary blob sends
the JSON serialization of the content as the PUT body and forces the
Content-Type header to the JSON media type regardless of the caller-supplied
`content_type`; string content is sent verbatim under the caller-declared
type. -/
theorem write_serializes_and_forces_json (t : Transport) (cfg : SolidPodConfig)
    (uri : String) (content : JsVal) (ct : String) :
    ((∀ s, content ≠ .vstr s) → (∀ b, content ≠ .vblob b) →
      (∃ rest, (writeResource t cfg uri content ct).2 =
        ({ url := normalizeUrl uri cfg.podUrl, method := .PUT,
           headers := setHeader (setHeader (getAuthHeaders cfg) "Content-Type" ct)
             "Content-Type" "application/json",
           body := (jsStringify content).map .strB } : HttpRequest) :: rest) ∧
      headerGet (setHeader (setHeader (getAuthHeaders cfg) "Content-Type" ct)
        "Content-Type" "application/json") "Content-Type" = some "application/json") ∧
    (∀ s, content = .vstr s →
      (∃ rest, (writeResource t cfg uri content ct).2 =
        ({ url := normalizeUrl uri cfg.podUrl, method := .PUT,
           headers := setHeader (getAuthHeaders cfg) "Content-Type" ct,
           body := some (.strB s) } : HttpRequest) :: rest) ∧
      headerGet (setHeader (getAuthHeaders cfg) "Content-Type" ct) "Content-Type" =
        some ct) := by
  have hkeys : ∀ p ∈ getAuthHeaders cfg, ¬ p.1 = "Content-Type" := fun p hp => by
    rcases getAuthHeaders_keys cfg p hp with h | h <;> rw [h] <;> decide
  have hlow : ∀ p ∈ getAuthHeaders cfg, ¬ strToLower p.1 = strToLower "Content-Type" :=
    fun p hp => by
      rcases getAuthHeaders_keys cfg p hp with h | h <;> rw [h] <;> decide
  constructor
  · intro hs hb
    refine ⟨?_, headerGet_set_set _ _ _ _ hkeys hlow⟩
    cases content with
    | vstr s => exact absurd rfl (hs s)
    | vblob b => exact absurd rfl (hb b)
    | vundefined => exact writePutFollowup_log t cfg _ _
    | vnull => exact writePutFollowup_log t cfg _ _
    | vbool b => exact writePutFollowup_log t cfg _ _
    | vnum n => exact writePutFollowup_log t cfg _ _
    | varr l => exact writePutFollowup_log t cfg _ _
    | vobj fs => exact writePutFollowup_log t cfg _ _
  · intro s hse
    subst hse
    exact ⟨writePutFollowup_log t cfg _ _, headerGet_setHeader_fresh _ _ _ hlow⟩

/-- A transport that always rejects (used to witness request construction
independent of transport behavior). -/
def offlineT : Transport := fun _ => .error "offline"

/-- Witness for C6: an object content is serialized to JSON under the
forced JSON media type; a string content goes out verbatim under the
caller-declared type. -/
theorem write_serializes_and_forces_json_witness :
    (∃ rest, (writeResource offlineT cfgP "http://p/w" (.vobj [("a", .vnum 1)]) "text/plain").2 =
      ({ url := "http://p/w", method := .PUT,
         headers := setHeader (setHeader (getAuthHeaders cfgP) "Content-Type" "text/plain")
           "Content-Type" "application/json",
         body := some (.strB "\x7b\"a\":1\x7d") } : HttpRequest) :: rest) ∧
    headerGet (setHeader (setHeader (getAuthHeaders cfgP) "Content-Type" "text/plain")
      "Content-Type" "application/json") "Content-Type" = some "application/json" ∧
    (∃ rest, (writeResource offlineT cfgP "http://p/w" (.vstr "hello") "text/plain").2 =
      ({ url := "http://p/w", method := .PUT,
         headers := setHeader (getAuthHeaders cfgP) "Content-Type" "text/plain",
         body := some (.strB "hello") } : HttpRequest) :: rest) := by
  have h1 := write_serializes_and_forces_json offlineT cfgP "http://p/w"
    (.vobj [("a", .vnum 1)]) "text/plain"
  have h2 := write_serializes_and_forces_json offlineT cfgP "http://p/w"
    (.vstr "hello") "text/plain"
  have hobj := h1.1 (fun s hs => JsVal.noConfusion hs) (fun b hb => JsVal.noConfusion hb)
  exact ⟨hobj.1, hobj.2, (h2.2 "hello" rfl).1⟩

/-- C4: a request whose action is missing, empty or not a string — or whose
parameters are missing or not an object — yields an error response whose
message contains "Invalid request", with zero transport calls; a well-formed
request with an unregistered action yields the error `Unknown action: <name>`
with zero transport calls. -/
theorem handle_invalid_and_unknown_requests :
    (∀ (t : Transport) (cfg : SolidPodConfig) (fuel : Nat) (fs : List (String × JsVal)),
      (!jsTruthy (objField fs "action") || jsTypeof (objField fs "action") ≠ "string") = true →
      handleRequest t cfg fuel (.vobj fs) =
        (.ok (.errorResp "Invalid request: missing or invalid action"), []) ∧
      strIncludes "Invalid request: missing or invalid action" "Invalid request" = true) ∧
    (∀ (t : Transport) (cfg : SolidPodConfig) (fuel : Nat) (fs : List (String × JsVal)),
      (!jsTruthy (objField fs "action") || jsTypeof (objField fs "action") ≠ "string") = false →
      (!jsTruthy (objField fs "parameters") || jsTypeof (objField fs "parameters") ≠ "object") = true →
      handleRequest t cfg fuel (.vobj fs) =
        (.ok (.errorResp "Invalid request: missing or invalid parameters"), []) ∧
      strIncludes "Invalid request: missing or invalid parameters" "Invalid request" = true) ∧
    (∀ (t : Transport) (cfg : SolidPodConfig) (fuel : Nat) (fs : List (String × JsVal))
      (name : String),
      objField fs "action" = .vstr name → name ≠ "" →
      (!jsTruthy (objField fs "parameters") || jsTypeof (objField fs "parameters") ≠ "object") = false →
      toolNames.contains name = false →
      handleRequest t cfg fuel (.vobj fs) =
        (.ok (.errorResp ("Unknown action: " ++ name)), [])) := by
  refine ⟨?_, ?_, ?_⟩
  · intro t cfg fuel fs hA
    unfold handleRequest innerHandle
    have hg : getField (.vobj fs) "action" = .ok (objField fs "action") := rfl
    rw [hg]
    dsimp only
    rw [if_pos hA]
    exact ⟨rfl, by decide⟩
  · intro t cfg fuel fs hA hP
    unfold handleRequest innerHandle
    have hg : getField (.vobj fs) "action" = .ok (objField fs "action") := rfl
    have hg2 : getField (.vobj fs) "parameters" = .ok (objField fs "parameters") := rfl
    rw [hg]
    dsimp only
    rw [if_neg (by rw [hA]; exact Bool.false_ne_true)]
    rw [hg2]
    dsimp only
    rw [if_pos hP]
    exact ⟨rfl, by decide⟩
  · intro t cfg fuel fs name ha hne hP hn
    unfold handleRequest innerHandle
    have hg : getField (.vobj fs) "action" = .ok (objField fs "action") := rfl
    have hg2 : getField (.vobj fs) "parameters" = .ok (objField fs "parameters") := rfl
    rw [hg, ha]
    dsimp only
    rw [if_neg (by simp [jsTruthy, jsTypeof, hne])]
    rw [hg2]
    dsimp only
    rw [if_neg (by rw [hP]; exact Bool.false_ne_true)]
    dsimp only [jsToString]
    rw [hn]
    rfl

/-- Witness for C4 at three concrete requests: missing action, missing
parameters, unknown action. -/
theorem handle_invalid_and_unknown_requests_witness :
    handleRequest offlineT cfgP 1 (.vobj []) =
      (.ok (.errorResp "Invalid request: missing or invalid action"), []) ∧
    handleRequest offlineT cfgP 1 (.vobj [("action", .vstr "read_resource")]) =
      (.ok (.errorResp "Invalid request: missing or invalid parameters"), []) ∧
    handleRequest offlineT cfgP 1
        (.vobj [("action", .vstr "not_real"), ("parameters", .vobj [])]) =
      (.ok (.errorResp "Unknown action: not_real"), []) := by
  refine ⟨?_, ?_, ?_⟩
  · exact (handle_invalid_and_unknown_requests.1 offlineT cfgP 1 [] (by decide)).1
  · exact (handle_invalid_and_unknown_requests.2.1 offlineT cfgP 1
      [("action", .vstr "read_resource")] (by decide) (by decide)).1
  · exact handle_invalid_and_unknown_requests.2.2 offlineT cfgP 1
      [("action", .vstr "not_real"), ("parameters", .vobj [])] "not_real"
      rfl (by decide) (by decide) (by decide)

/-- C5: the dispatcher never lets a thrown error escape: the outcome is
never a raw `err`; it is the success envelope exactly when the inner
pipeline (validation, lookup, executor) succeeds, and the error envelope
exactly when the inner pipeline throws, with the message preserved. -/
theorem handle_envelope_total (t : Transport) (cfg : SolidPodConfig)
    (fuel : Nat) (request : JsVal) :
    (∀ e log, handleRequest t cfg fuel request ≠ (.err e, log)) ∧
    (∀ v log, handleRequest t cfg fuel request = (.ok (.success v), log) ↔
      innerHandle t cfg fuel request = (.ok v, log)) ∧
    (∀ m log, handleRequest t cfg fuel request = (.ok (.errorResp m), log) ↔
      innerHandle t cfg fuel request = (.err m, log)) := by
  unfold handleRequest
  rcases hi : innerHandle t cfg fuel request with ⟨o, lg⟩
  cases o <;>
    refine ⟨?_, ?_, ?_⟩ <;> intros <;>
    first
    | (intro h; simp_all)
    | (constructor <;> intro h <;> simp_all)

/-- Witness for C5: a thrown executor failure (a non-string URI reaching
`startsWith`) comes back as the error envelope. -/
theorem handle_envelope_total_witness :
    handleRequest offlineT cfgP 1
        (.vobj [("action", .vstr "delete_resource"), ("parameters", .vobj [])]) =
      (.ok (.errorResp "uri.startsWith is not a function"), []) := by
  exact ((handle_envelope_total offlineT cfgP 1
    (.vobj [("action", .vstr "delete_resource"), ("parameters", .vobj [])])).2.2 _ _).mpr rfl

/-! ## Transport-failure lemmas -/

/-- The GET request every read issues. -/
def getReq (cfg : SolidPodConfig) (u : String) : HttpRequest :=
  { url := u, method := .GET, headers := getAuthHeaders cfg }

theorem readResourceCore_transport_error (t : Transport) (cfg : SolidPodConfig)
    (u : String) (inc : Bool) (e : String)
    (ht : t { url := u, method := .GET, headers := getAuthHeaders cfg, body := none } = .error e) :
    readResourceCore t cfg u inc = (.err (wrapReadErr u e), [getReq cfg u]) := by
  unfold readResourceCore
  simp only [ht]
  rfl

theorem writePutFollowup_transport_error (t : Transport) (cfg : SolidPodConfig)
    (u : String) (req : HttpRequest) (e : String) (ht : t req = .error e) :
    writePutFollowup t cfg u req = (.err (wrapWriteErr u e), [req]) := by
  unfold writePutFollowup
  simp only [ht]

theorem deleteResourceCore_transport_error (t : Transport) (cfg : SolidPodConfig)
    (u : String) (e : String)
    (ht : t { url := u, method := .DELETE, headers := getAuthHeaders cfg, body := none } = .error e) :
    deleteResourceCore t cfg u =
      (.err (wrapDeleteErr u e),
       [{ url := u, method := .DELETE, headers := getAuthHeaders cfg, body := none }]) := by
  unfold deleteResourceCore
  simp only [ht]

/-- The PUT request `createContainer` issues. -/
def createReq (cfg : SolidPodConfig) (u : String) : HttpRequest :=
  { url := u, method := .PUT,
    headers := setHeader
      (setHeader (getAuthHeaders cfg) "Link"
        "<http://www.w3.org/ns/ldp#BasicContainer>; rel=\"type\"")
      "Content-Type" "text/turtle" }

theorem createContainerCore_transport_error (t : Transport) (cfg : SolidPodConfig)
    (u : String) (e : String)
    (ht : t { url := u, method := .PUT, headers := setHeader (setHeader (getAuthHeaders cfg) "Link" "<http://www.w3.org/ns/ldp#BasicContainer>; rel=\"type\"") "Content-Type" "text/turtle", body := none } = .error e) :
    createContainerCore t cfg u = (.err (wrapCreateErr u e), [createReq cfg u]) := by
  unfold createContainerCore
  simp only [ht]
  rfl

theorem handleRequest_inner_err (t : Transport) (cfg : SolidPodConfig) (fuel : Nat)
    (req : JsVal) (m : String) (log : List HttpRequest)
    (h : innerHandle t cfg fuel req = (.err m, log)) :
    handleRequest t cfg fuel req = (.ok (.errorResp m), log) := by
  unfold handleRequest
  rw [h]

theorem handleRequest_inner_ok (t : Transport) (cfg : SolidPodConfig) (fuel : Nat)
    (req : JsVal) (v : ActionResult) (log : List HttpRequest)
    (h : innerHandle t cfg fuel req = (.ok v, log)) :
    handleRequest t cfg fuel req = (.ok (.success v), log) := by
  unfold handleRequest
  rw [h]

/-! ## C3: error surfacing -/

def c3ReadReq : JsVal :=
  .vobj [("action", .vstr "read_resource"), ("parameters", .vobj [("uri", .vstr "http://p/r")])]

def c3WriteReq : JsVal :=
  .vobj [("action", .vstr "write_resource"),
    ("parameters", .vobj [("uri", .vstr "http://p/r"), ("content", .vstr "x"),
      ("content_type", .vstr "text/plain")])]

def c3DeleteReq : JsVal :=
  .vobj [("action", .vstr "delete_resource"), ("parameters", .vobj [("uri", .vstr "http://p/r")])]

def c3ListReq : JsVal :=
  .vobj [("action", .vstr "list_container"), ("parameters", .vobj [("uri", .vstr "http://p/c/")])]

def c3CreateReq : JsVal :=
  .vobj [("action", .vstr "create_container"), ("parameters", .vobj [("uri", .vstr "http://p/c/")])]

def c3SearchReq : JsVal :=
  .vobj [("action", .vstr "search"),
    ("parameters", .vobj [("container_uri", .vstr "http://p/c/"), ("search_term", .vstr "a")])]

/-- The PUT request the C3 write scenario issues. -/
def c3PutReq (cfg : SolidPodConfig) : HttpRequest :=
  { url := "http://p/r", method := .PUT,
    headers := setHeader (getAuthHeaders cfg) "Content-Type" "text/plain",
    body := some (.strB "x") }

/-- A transport whose every call rejects. -/
def netFailT : Transport := fun _ => .error "network down"

/-- C3 counterexample: the claim is false — search is a second silent
swallower.  A transport failure inside search (the GET was attempted, as the
log shows) is caught, logged, and turned into a *success* envelope with an
empty result list, not a thrown failure or error response. -/
theorem search_swallows_transport_failure :
    (handleRequest netFailT cfgP 1 c3SearchReq).1 = .ok (.success (.searchR [])) ∧
    (handleRequest netFailT cfgP 1 c3SearchReq).2 = [getReq cfgP "http://p/c/"] :=
  ⟨rfl, rfl⟩

/-- C3 amended: for dispatch, read, write, delete and create-container, an
internal (transport) failure surfaces as an error response carrying the
underlying message; the exceptions are the permissions stub *and* the search
operation, which degrades to a success envelope with an empty result list on
any internal failure. -/
theorem core_failures_surfaced_except_permissions_and_search
    (t : Transport) (cfg : SolidPodConfig) (e : String) (fuel : Nat)
    (h : ∀ req, t req = .error e) :
    handleRequest t cfg fuel c3ReadReq =
      (.ok (.errorResp (wrapReadErr "http://p/r" e)), [getReq cfg "http://p/r"]) ∧
    handleRequest t cfg fuel c3WriteReq =
      (.ok (.errorResp (wrapWriteErr "http://p/r" e)), [c3PutReq cfg]) ∧
    handleRequest t cfg fuel c3DeleteReq =
      (.ok (.errorResp (wrapDeleteErr "http://p/r" e)),
       [{ url := "http://p/r", method := .DELETE, headers := getAuthHeaders cfg, body := none }]) ∧
    handleRequest t cfg fuel c3ListReq =
      (.ok (.errorResp (wrapReadErr "http://p/c/" e)), [getReq cfg "http://p/c/"]) ∧
    handleRequest t cfg fuel c3CreateReq =
      (.ok (.errorResp (wrapCreateErr "http://p/c/" e)), [createReq cfg "http://p/c/"]) ∧
    handleRequest t cfg (fuel + 1) c3SearchReq =
      (.ok (.success (.searchR [])), [getReq cfg "http://p/c/"]) := by
  refine ⟨?_, ?_, ?_, ?_, ?_, ?_⟩
  · apply handleRequest_inner_err
    have hcore := readResourceCore_transport_error t cfg "http://p/r" true e (h _)
    show (match readResourceCore t cfg "http://p/r" true with
          | (.ok r, log) => ((Outcome.ok (ActionResult.readR r) : Outcome ActionResult), log)
          | (.err e', log) => (.err e', log)
          | (.div, log) => (.div, log)) = _
    rw [hcore]
  · apply handleRequest_inner_err
    have hw : writeResourceJs t cfg (.vstr "http://p/r") (.vstr "x") (.vstr "text/plain") =
        (.err (wrapWriteErr "http://p/r" e), [c3PutReq cfg]) := by
      show writePutFollowup t cfg "http://p/r" (c3PutReq cfg) = _
      exact writePutFollowup_transport_error t cfg "http://p/r" (c3PutReq cfg) e (h _)
    show (match writeResourceJs t cfg (.vstr "http://p/r") (.vstr "x") (.vstr "text/plain") with
          | (.ok r, log) => ((Outcome.ok (ActionResult.writeR r) : Outcome ActionResult), log)
          | (.err e', log) => (.err e', log)
          | (.div, log) => (.div, log)) = _
    rw [hw]
  · apply handleRequest_inner_err
    have hd : deleteResourceJs t cfg (.vstr "http://p/r") =
        (.err (wrapDeleteErr "http://p/r" e),
         [{ url := "http://p/r", method := .DELETE, headers := getAuthHeaders cfg, body := none }]) := by
      show deleteResourceCore t cfg "http://p/r" = _
      exact deleteResourceCore_transport_error t cfg "http://p/r" e (h _)
    show (match deleteResourceJs t cfg (.vstr "http://p/r") with
          | (.ok b, log) => ((Outcome.ok (ActionResult.deleteR b) : Outcome ActionResult), log)
          | (.err e', log) => (.err e', log)
          | (.div, log) => (.div, log)) = _
    rw [hd]
  · apply handleRequest_inner_err
    have hl : readResourceJs t cfg (.vstr "http://p/c/") false =
        (.err (wrapReadErr "http://p/c/" e), [getReq cfg "http://p/c/"]) := by
      show readResourceCore t cfg "http://p/c/" false = _
      exact readResourceCore_transport_error t cfg "http://p/c/" false e (h _)
    show (match readResourceJs t cfg (.vstr "http://p/c/") false with
          | (.ok r, log) =>
            ((Outcome.ok (ActionResult.listR r.resource (r.children.getD [])) : Outcome ActionResult), log)
          | (.err e', log) => (.err e', log)
          | (.div, log) => (.div, log)) = _
    rw [hl]
  · apply handleRequest_inner_err
    have hc : createContainerJs t cfg (.vstr "http://p/c/") =
        (.err (wrapCreateErr "http://p/c/" e), [createReq cfg "http://p/c/"]) := by
      show createContainerCore t cfg "http://p/c/" = _
      exact createContainerCore_transport_error t cfg "http://p/c/" e (h _)
    show (match createContainerJs t cfg (.vstr "http://p/c/") with
          | (.ok r, log) => ((Outcome.ok (ActionResult.createR r.resource) : Outcome ActionResult), log)
          | (.err e', log) => (.err e', log)
          | (.div, log) => (.div, log)) = _
    rw [hc]
  · apply handleRequest_inner_ok
    have hjs : readResourceJs t cfg (.vstr "http://p/c/") false =
        (.err (wrapReadErr "http://p/c/" e), [getReq cfg "http://p/c/"]) := by
      show readResourceCore t cfg "http://p/c/" false = _
      exact readResourceCore_transport_error t cfg "http://p/c/" false e (h _)
    have hs : searchResources t cfg (.vstr "http://p/c/") (.vstr "a") false (fuel + 1) =
        (.ok [], [getReq cfg "http://p/c/"]) := by
      unfold searchResources searchGo
      simp only [hjs]
    show (match searchResources t cfg (.vstr "http://p/c/") (.vstr "a") false (fuel + 1) with
          | (.ok results, log) => ((Outcome.ok (ActionResult.searchR results) : Outcome ActionResult), log)
          | (.err e', log) => (.err e', log)
          | (.div, log) => (.div, log)) = _
    rw [hs]

/-- Witness for the amended C3: a concrete always-failing transport. -/
theorem core_failures_surfaced_except_permissions_and_search_witness :
    handleRequest netFailT cfgP 0 c3ReadReq =
      (.ok (.errorResp (wrapReadErr "http://p/r" "network down")), [getReq cfgP "http://p/r"]) ∧
    handleRequest netFailT cfgP 1 c3SearchReq =
      (.ok (.success (.searchR [])), [getReq cfgP "http://p/c/"]) := by
  have h := core_failures_surfaced_except_permissions_and_search netFailT cfgP
    "network down" 0 (fun _ => rfl)
  exact ⟨h.1, h.2.2.2.2.2⟩

/-! ## C7: search scenarios -/

def dUrl : String := "http://p/d/"

def aUrl : String := "http://p/d/a.txt"

/-- Container `d` whose children are `a.txt` (itself a container) and
`b.txt`. -/
def dBody : String :=
  "<http://p/d/> a <http://www.w3.org/ns/ldp#Container> .\n" ++
  "<http://p/d/a.txt> a <http://www.w3.org/ns/ldp#Container> .\n" ++
  "<http://p/d/b.txt> <http://purl.org/dc/terms/format> \"text/plain\" ."

/-- Container `a.txt` with one matching child. -/
def aBody : String :=
  "<http://p/d/a.txt> a <http://www.w3.org/ns/ldp#Container> .\n" ++
  "<http://p/d/a.txt/inner-a.txt> <http://purl.org/dc/terms/format> \"text/plain\" ."

def s2T : Transport := fun req =>
  if req.url = dUrl then
    .ok { ok := true, status := 200, statusText := "OK",
          headers := [("Content-Type", "text/turtle")], body := dBody }
  else if req.url = aUrl then
    .ok { ok := true, status := 200, statusText := "OK",
          headers := [("Content-Type", "text/turtle")], body := aBody }
  else .error "Not Found"

/-- A transport serving a plain text resource (no children field at all). -/
def plainT : Transport := fun _ =>
  .ok { ok := true, status := 200, statusText := "OK",
        headers := [("Content-Type", "text/plain")], body := "hello" }

/-- A turtle container whose body yields no children. -/
def s3T : Transport := fun req =>
  if req.url = "http://p/e/" then
    .ok { ok := true, status := 200, statusText := "OK",
          headers := [("Content-Type", "text/turtle")],
          body := "<http://p/e/> a <http://www.w3.org/ns/ldp#Container> ." }
  else .error "Not Found"

/-- C7: searching the container with children `[a.txt, b.txt]` for `"a"`
returns exactly one hit, for `a.txt`, with relevance `0.8`; with
`recursive = true` and `a.txt` itself a container holding a matching child,
the parent's hit precedes the descendant's (pre-order); a read without
children and a container with an empty child list both yield the empty
sequence. -/
theorem search_scenarios :
    (searchResources c1T cfgP (.vstr c1Url) (.vstr "a") false 5).1 =
      .ok [{ uri := "http://p/c/a.txt", type := "resource",
             contentType := some "text/plain", relevance := 0.8 }] ∧
    (searchResources s2T cfgP (.vstr dUrl) (.vstr "a") true 5).1 =
      .ok [{ uri := "http://p/d/a.txt", type := "container", relevance := 0.8 },
           { uri := "http://p/d/a.txt/inner-a.txt", type := "resource",
             contentType := some "text/plain", relevance := 0.8 }] ∧
    (searchResources plainT cfgP (.vstr "http://p/x") (.vstr "a") true 5).1 = .ok [] ∧
    (searchResources s3T cfgP (.vstr "http://p/e/") (.vstr "a") true 5).1 = .ok [] :=
  ⟨rfl, rfl, rfl, rfl⟩

/-! ## C9: termination of recursive search -/

/-- The child loop cannot itself diverge as long as every recursive call on
a container child is divergence-free. -/
theorem searchChildren_ne_div
    (recurse : String → Outcome (List SearchHit) × List HttpRequest)
    (recursive : Bool) (lowerTerm : String)
    (children : List SolidResource) (acc : List SearchHit) (log : List HttpRequest)
    (h : ∀ child ∈ children, child.type = "container" → (recurse child.uri).1 ≠ .div) :
    (searchChildren recurse recursive lowerTerm children acc log).1 ≠ .div := by
  induction children generalizing acc log with
  | nil =>
    intro hc
    exact Outcome.noConfusion hc
  | cons c cs ih =>
    unfold searchChildren
    cases hf : getFilenameFromUrl c.uri with
    | error e =>
      intro hc
      exact Outcome.noConfusion hc
    | ok filename =>
      dsimp only
      by_cases hrc : (recursive && c.type = "container") = true
      · rw [if_pos hrc]
        rcases hx : recurse c.uri with ⟨o, sublog⟩
        cases o with
        | ok childResults => exact ih _ _ (fun ch hm ht => h ch (by simp [hm]) ht)
        | err e2 =>
          intro hc
          exact Outcome.noConfusion hc
        | div =>
          have hty : c.type = "container" := of_decide_eq_true (Bool.and_elim_right hrc)
          have := h c (by simp) hty
          rw [hx] at this
          exact absurd rfl this
      · rw [if_neg hrc]
        exact ih _ _ (fun ch hm ht => h ch (by simp [hm]) ht)

/-- The self-containing container of the cyclic scenario. -/
def loopRes : SolidResource := { uri := "http://c/l/", type := "container" }

/-- A reading capability describing a container whose only child is
itself. -/
def cyclicRead : JsVal → Outcome SolidResourceResponse × List HttpRequest :=
  fun _ => (.ok { resource := loopRes, children := some [loopRes] }, [])

/-- C9: with a divergence-free reading capability and a ranking function
that drops on every container child (the acyclicity of a finite container
graph), recursive search completes within any fuel above the start's rank —
and on the cyclic self-containing graph the recursion exhausts every fuel,
i.e. it is unbounded. -/
theorem search_acyclic_terminates_cyclic_unbounded :
    (∀ (read : JsVal → Outcome SolidResourceResponse × List HttpRequest)
       (d : String → Nat) (termV : JsVal) (recursive : Bool),
      (∀ v, (read v).1 ≠ .div) →
      (∀ u res children child, (read (.vstr u)).1 = .ok res →
        res.children = some children → child ∈ children →
        child.type = "container" → d child.uri < d u) →
      ∀ fuel uri, d uri < fuel →
        (searchGo read termV recursive fuel (.vstr uri)).1 ≠ .div) ∧
    (∀ fuel, (searchGo cyclicRead (.vstr "l") true fuel (.vstr "http://c/l/")).1 = .div) := by
  constructor
  · intro read d termV recursive hread hrank fuel
    induction fuel with
    | zero => intro uri h; exact absurd h (Nat.not_lt_zero _)
    | succ n ih =>
      intro uri hlt
      unfold searchGo
      rcases hr : read (.vstr uri) with ⟨o, log⟩
      cases o with
      | err e =>
        intro hc
        exact Outcome.noConfusion hc
      | div =>
        have := hread (.vstr uri)
        rw [hr] at this
        exact absurd rfl this
      | ok result =>
        dsimp only
        cases hc : result.children with
        | none =>
          intro hcon
          exact Outcome.noConfusion hcon
        | some children =>
          cases children with
          | nil =>
            intro hcon
            exact Outcome.noConfusion hcon
          | cons c cs =>
            cases termV with
            | vstr term =>
              apply searchChildren_ne_div
              intro child hm hty
              have hread1 : (read (.vstr uri)).1 = .ok result := by rw [hr]
              have hd : d child.uri < d uri := hrank uri result (c :: cs) child hread1 hc hm hty
              exact ih child.uri (Nat.lt_of_lt_of_le hd (Nat.lt_succ_iff.mp hlt))
            | vundefined => intro hcon; exact Outcome.noConfusion hcon
            | vnull => intro hcon; exact Outcome.noConfusion hcon
            | vbool b => intro hcon; exact Outcome.noConfusion hcon
            | vnum m => intro hcon; exact Outcome.noConfusion hcon
            | vblob bb => intro hcon; exact Outcome.noConfusion hcon
            | varr l => intro hcon; exact Outcome.noConfusion hcon
            | vobj fs => intro hcon; exact Outcome.noConfusion hcon
  · intro fuel
    induction fuel with
    | zero => rfl
    | succ n ih =>
      show (match searchGo cyclicRead (.vstr "l") true n (.vstr "http://c/l/") with
            | (.ok childResults, sublog) =>
              searchChildren (fun u => searchGo cyclicRead (.vstr "l") true n (.vstr u))
                true "l" [] ([] ++ childResults) ([] ++ sublog)
            | (.err e, sublog) => ((Outcome.ok ([] : List SearchHit)), [] ++ sublog)
            | (.div, sublog) => ((Outcome.div : Outcome (List SearchHit)), [] ++ sublog)).1 = .div
      rcases hsn : searchGo cyclicRead (.vstr "l") true n (.vstr "http://c/l/") with ⟨o, lg⟩
      rw [hsn] at ih
      cases o with
      | ok r => exact absurd ih (by intro hcon; exact Outcome.noConfusion hcon)
      | err e => exact absurd ih (by intro hcon; exact Outcome.noConfusion hcon)
      | div => rfl

/-- A reading capability with no children anywhere. -/
def noChildRead : JsVal → Outcome SolidResourceResponse × List HttpRequest :=
  fun _ => (.ok { resource := { uri := "http://p/x", type := "resource" } }, [])

/-- Witness for C9's termination half at a concrete childless graph with
the constant-zero ranking. -/
theorem search_acyclic_terminates_cyclic_unbounded_witness :
    (searchGo noChildRead (.vstr "a") true 1 (.vstr "http://p/x")).1 ≠ .div := by
  apply search_acyclic_terminates_cyclic_unbounded.1 noChildRead (fun _ => 0) (.vstr "a") true
  · intro v hcon
    exact Outcome.noConfusion hcon
  · intro u res children child h1 h2 hm hty
    injection h1 with h1
    rw [← h1] at h2
    exact Option.noConfusion h2
  · decide

end SolidMCP
